import Mathlib

/-!
Verification of the table-abstraction layer of baza.py: a shallow embedding of
the generic Tabela class (dodajanje, dodaj_vrstico, uvozi, izbrisi, izprazni),
of the five concrete table declarations, and of the orchestration and
bootstrap functions, over an explicit model of the SQLite storage engine at
the granularity of the statements this program generates.
-/

set_option autoImplicit false

/-- Storage-layer errors, mirroring the exception kinds the program can meet:
operational errors of the engine (no such table, grammar errors, a table that
already exists), integrity errors (constraint violations), a missing or
unreadable data file, and the StopIteration raised when the header record of
an empty file is read. -/
inductive SqlError where
  | operational : String → SqlError
  | integrity : String → SqlError
  | ioError : SqlError
  | stopIteration : SqlError
  deriving DecidableEq

/-- Declaration of one column of a CREATE TABLE statement: its name, its
declared type, whether NOT NULL was declared, whether PRIMARY KEY was
declared, whether AUTOINCREMENT was declared, and an optional REFERENCES
clause naming a target table and column. -/
structure Column where
  name : String
  declType : String
  notnull : Bool
  pk : Bool
  autoinc : Bool
  refs : Option (String × String)
  deriving DecidableEq

/-- One table of the store: the declared columns, the stored rows, each row
being the named bindings it was inserted with, and the next rowid the engine
will assign. -/
structure Table where
  schema : List Column
  rows : List (List (String × String))
  nextId : Nat
  deriving DecidableEq

/-- State of the storage engine: the tables of the database, keyed by name,
and a trace of the parameterized DML statements executed so far, each with
its statement text and its named bindings. Only the parameterized inserts of
dodaj_vrstico are recorded in the trace; it serves as the observable record
of the insert calls the program performed. -/
structure DB where
  tables : List (String × Table)
  log : List (String × List (String × String))
  deriving DecidableEq

/-- First value bound to the given key in an association list. -/
def assocFind {α : Type} (k : String) : List (String × α) → Option α
  | [] => none
  | kv :: rest => if kv.1 = k then some kv.2 else assocFind k rest

/-- Removal of every entry bound to the given key. -/
def removeA {α : Type} (k : String) : List (String × α) → List (String × α)
  | [] => []
  | kv :: rest => if kv.1 = k then removeA k rest else kv :: removeA k rest

/-- Application of a function to every entry bound to the given key, leaving
all other entries unchanged. -/
def updateA {α : Type} (k : String) (f : α → α) :
    List (String × α) → List (String × α)
  | [] => []
  | kv :: rest =>
      (if kv.1 = k then (kv.1, f kv.2) else kv) :: updateA k f rest

/-- The empty database. -/
def praznaBaza : DB := ⟨[], []⟩

/-- Model of executing a CREATE TABLE statement. SQLite fails only when a
table of that name already exists; a REFERENCES clause is recorded in the
schema but its target is not looked up at creation time (SQLite defers all
foreign-key checking to DML statements, and the program never enables
PRAGMA foreign_keys, the line that would do so being commented out after the
connection is closed, so the clauses stay unenforced even then). -/
def DB.createTable (db : DB) (ime : String) (stolpci : List Column) :
    Except SqlError DB :=
  if (assocFind ime db.tables).isSome then
    .error (.operational "table already exists")
  else
    .ok ⟨(ime, ⟨stolpci, [], 1⟩) :: db.tables, db.log⟩

/-- Model of executing DROP TABLE IF EXISTS: the table of that name is
removed when present, and nothing happens when it is absent; the statement
never fails. -/
def DB.dropTableIfExists (db : DB) (ime : String) : DB :=
  ⟨removeA ime db.tables, db.log⟩

/-- Model of executing DELETE FROM on a whole table: fails when no table of
that name exists, and otherwise removes every row while leaving the declared
columns and the rowid counter untouched. -/
def DB.deleteAll (db : DB) (ime : String) : Except SqlError DB :=
  match assocFind ime db.tables with
  | none => .error (.operational "no such table")
  | some _ =>
      .ok ⟨updateA ime (fun tb => { tb with rows := [] }) db.tables, db.log⟩

/-- Model of the engine executing a parameterized INSERT statement. The
engine receives the statement text built by dodajanje; for statements of
that fixed shape the parsed content is the table name and the column list,
which are passed alongside the text. An empty column list is rejected by the
SQLite grammar as a plain operational error before any table is looked up;
then the table must exist; then every column declared NOT NULL must be among
the inserted columns, or the engine raises an integrity error (there are no
declared defaults in this schema, and a column of the kind INTEGER PRIMARY
KEY receives the automatic rowid rather than NULL, which the schema encodes
by not marking such columns notnull). On success the row is appended, the
statement and its bindings are recorded in the trace, and the cursor reports
the assigned rowid as lastrowid. Uniqueness of primary keys is not modelled;
no claim under verification depends on it. -/
def DB.executeInsert (db : DB) (poizvedba : String) (ime : String)
    (stolpci : List String) (vrednosti : List (String × String)) :
    Except SqlError (DB × Nat) :=
  if stolpci.isEmpty then
    .error (.operational "syntax error")
  else
    match assocFind ime db.tables with
    | none => .error (.operational "no such table")
    | some tbl =>
        if tbl.schema.all (fun c => !c.notnull || stolpci.contains c.name) then
          .ok (⟨updateA ime
                  (fun tb => { tb with
                                rows := tb.rows ++ [vrednosti],
                                nextId := tb.nextId + 1 }) db.tables,
                db.log ++ [(poizvedba, vrednosti)]⟩,
               tbl.nextId)
        else
          .error (.integrity "NOT NULL constraint failed")

/-- Number of rows of the named table, when it exists. -/
def DB.rowcount (db : DB) (ime : String) : Option Nat :=
  (assocFind ime db.tables).map fun t => t.rows.length

/-- Model of SELECT COUNT from sqlite_master: the number of schema objects.
The model counts the tables; the exact SQLite figure may also count indexes
and internal sequence objects, but the program never reads the result. -/
def DB.schemaCount (db : DB) : Nat := db.tables.length

/-- Model of the generic table class of baza.py. The source declares ime and
podatki as class attributes, and every concrete subclass overrides ustvari
with one fixed CREATE TABLE statement, so the column list of that statement
is carried as data of the subclass here. -/
structure Tabela where
  ime : String
  podatki : Option String
  ddl : List Column

/-- Python formatting of the constant PARAM_FMT, whose value is a colon
followed by a brace pair, with a column name: the braces are replaced by the
name, yielding the SQLite named-parameter placeholder for that column. -/
def PARAM_FMT_format (s : String) : String := ":" ++ s

/-- Translation of Tabela.dodajanje: the statement builder. It produces the
exact text of the f-string of the source, with the column names joined by a
comma and a space in the column clause and the corresponding placeholders
joined the same way in the VALUES clause. -/
def Tabela.dodajanje (t : Tabela) (stolpci : List String) : String :=
  "\n            INSERT INTO " ++ t.ime ++ " (" ++
    String.intercalate ", " stolpci ++
    ")\n            VALUES (" ++
    String.intercalate ", " (stolpci.map PARAM_FMT_format) ++
    ");\n        "

/-- Translation of Tabela.ustvari as overridden by every concrete subclass:
execute the fixed CREATE TABLE statement of the subclass. -/
def Tabela.ustvari (t : Tabela) (db : DB) : Except SqlError DB :=
  db.createTable t.ime t.ddl

/-- Translation of Tabela.izbrisi: execute DROP TABLE IF EXISTS. -/
def Tabela.izbrisi (t : Tabela) (db : DB) : DB :=
  db.dropTableIfExists t.ime

/-- Translation of Tabela.izprazni: execute DELETE FROM on the table. -/
def Tabela.izprazni (t : Tabela) (db : DB) : Except SqlError DB :=
  db.deleteAll t.ime

/-- Translation of Tabela.dodaj_vrstico: drop every entry whose value is
None, build the statement text with dodajanje over the keys of the remaining
entries, execute it with the remaining entries as named bindings, and return
the lastrowid of the cursor. -/
def Tabela.dodaj_vrstico (t : Tabela) (db : DB)
    (podatki : List (String × Option String)) : Except SqlError (DB × Nat) :=
  let podatki2 := podatki.filterMap fun kv => kv.2.map fun v => (kv.1, v)
  let poizvedba := t.dodajanje (podatki2.map Prod.fst)
  db.executeInsert poizvedba t.ime (podatki2.map Prod.fst) podatki2

/-- Python dictionary assignment on an insertion-ordered association list:
when the key is already bound, its value is replaced in place; otherwise the
binding is appended at the end. -/
def pyUpsert : List (String × Option String) → String → Option String →
    List (String × Option String)
  | [], k, v => [(k, v)]
  | kv :: rest, k, v =>
      if kv.1 = k then (k, v) :: rest else kv :: pyUpsert rest k v

/-- Python dictionary built from a list of key-value pairs by successive
assignment, as a dict comprehension does: insertion order of first
occurrences, value of the last occurrence of each key. -/
def pythonDict (l : List (String × Option String)) :
    List (String × Option String) :=
  l.foldl (fun d kv => pyUpsert d kv.1 kv.2) []

/-- Translation of the record-decoding step of Tabela.uvozi, the dict
comprehension over the zip of the header with a raw record: each header name
is paired positionally with its raw value, an empty raw value becomes None
and every other raw value passes through unchanged, the zip truncating to
the shorter of the two sequences, and the pairs are then assembled into a
Python dictionary. -/
def rowCodec (stolpci : List String) (vrstica : List String) :
    List (String × Option String) :=
  pythonDict ((stolpci.zip vrstica).map
    fun kv => (kv.1, if kv.2 = "" then none else some kv.2))

/-- A decoded delimited-text source: the file system maps each path to the
list of its records, each record being the list of its fields, as the csv
reader of the standard library delivers them. -/
def FS : Type := List (String × List (List String))

/-- Loop body of Tabela.uvozi over the data records: each record is decoded
with the row codec and passed to dodaj_vrstico, in source order, stopping at
the first error. -/
def Tabela.uvoziVrstice (t : Tabela) (stolpci : List String) :
    List (List String) → DB → Except SqlError DB
  | [], db => .ok db
  | v :: vs, db =>
      match t.dodaj_vrstico db (rowCodec stolpci v) with
      | .error e => .error e
      | .ok (db2, _) => t.uvoziVrstice stolpci vs db2

/-- Translation of Tabela.uvozi: nothing happens when no data file is
configured; otherwise the file is opened (a missing file is an input error),
its first record is read as the header, raising StopIteration when the file
has no records at all, and every following record is decoded and inserted in
source order. -/
def Tabela.uvozi (t : Tabela) (fs : FS) (db : DB) : Except SqlError DB :=
  match t.podatki with
  | none => .ok db
  | some pot =>
      match assocFind pot fs with
      | none => .error .ioError
      | some zapisi =>
          match zapisi with
          | [] => .error .stopIteration
          | stolpci :: vrstice => t.uvoziVrstice stolpci vrstice db

/-- Columns of the CREATE TABLE statement of Stranka. -/
def strankaStolpci : List Column :=
  [⟨"id", "INTEGER", false, true, true, none⟩,
   ⟨"first_name", "TEXT", true, false, false, none⟩,
   ⟨"last_name", "TEXT", true, false, false, none⟩,
   ⟨"email", "TEXT", true, false, false, none⟩,
   ⟨"gender", "TEXT", true, false, false, none⟩,
   ⟨"ip_address", "TEXT", true, false, false, none⟩]

/-- The Stranka table: name stranka, data file podatki/stranka.csv. -/
def stranka : Tabela :=
  ⟨"stranka", some "podatki/stranka.csv", strankaStolpci⟩

/-- Columns of the CREATE TABLE statement of Oblacila. -/
def oblacilaStolpci : List Column :=
  [⟨"clothing_type", "TEXT", true, false, false, none⟩,
   ⟨"size", "TEXT", true, false, false, none⟩,
   ⟨"color", "TEXT", true, false, false, none⟩,
   ⟨"brand", "TEXT", true, false, false, none⟩,
   ⟨"material", "TEXT", true, false, false, none⟩,
   ⟨"price", "INTEGER", true, false, false, none⟩,
   ⟨"season", "TEXT", true, false, false, none⟩,
   ⟨"ID", "TEXT", false, true, false, none⟩]

/-- The Oblacila table: name oblacilo, data file podatki/oblacila.csv. -/
def oblacilo : Tabela :=
  ⟨"oblacilo", some "podatki/oblacila.csv", oblacilaStolpci⟩

/-- Columns of the CREATE TABLE statement of Zaloga. The REFERENCES clause
of id_izdelka names the table oblacila, although the clothing table is in
fact created under the name oblacilo. -/
def zalogaStolpci : List Column :=
  [⟨"id_dobave", "TEXT", false, true, false, none⟩,
   ⟨"id_izdelka", "TEXT", false, false, false, some ("oblacila", "ID")⟩,
   ⟨"price", "REAL", true, false, false, none⟩,
   ⟨"quantity", "INTEGER", true, false, false, none⟩,
   ⟨"date_of_launch", "DATE", false, false, false, none⟩]

/-- The Zaloga table: name zaloga, data file podatki/zaloga.csv. -/
def zaloga : Tabela :=
  ⟨"zaloga", some "podatki/zaloga.csv", zalogaStolpci⟩

/-- Columns of the CREATE TABLE statement of Kosarica. -/
def kosaricaStolpci : List Column :=
  [⟨"cart_id", "INTEGER", false, true, true, none⟩,
   ⟨"product_id", "TEXT", false, false, false, some ("oblacila", "ID")⟩,
   ⟨"discount", "REAL", false, false, false, none⟩]

/-- The Kosarica table: name kosarica, data file podatki/kosarica.csv. -/
def kosarica : Tabela :=
  ⟨"kosarica", some "podatki/kosarica.csv", kosaricaStolpci⟩

/-- Columns of the CREATE TABLE statement of Narocilo. -/
def narociloStolpci : List Column :=
  [⟨"id_kosarice", "TEXT", false, false, false, some ("kosarica", "id_kosarice")⟩,
   ⟨"ID", "TEXT", false, false, false, some ("stranka", "id")⟩,
   ⟨"status", "BOOLEAN", false, false, false, none⟩,
   ⟨"status_2", "BOOLEAN", false, false, false, none⟩]

/-- The Narocilo table: name narocilo, data file podatki/narocilo.csv. -/
def narocilo : Tabela :=
  ⟨"narocilo", some "podatki/narocilo.csv", narociloStolpci⟩

/-- Translation of ustvari_tabele: call ustvari on each table in order,
stopping at the first error. -/
def ustvari_tabele : List Tabela → DB → Except SqlError DB
  | [], db => .ok db
  | t :: ts, db =>
      match t.ustvari db with
      | .error e => .error e
      | .ok db2 => ustvari_tabele ts db2

/-- Translation of izbrisi_tabele: call izbrisi on each table in order. -/
def izbrisi_tabele : List Tabela → DB → DB
  | [], db => db
  | t :: ts, db => izbrisi_tabele ts (t.izbrisi db)

/-- Translation of uvozi_podatke: call uvozi on each table in order,
stopping at the first error. The informational print of each table name is a
console side effect outside the model. -/
def uvozi_podatke : List Tabela → FS → DB → Except SqlError DB
  | [], _, db => .ok db
  | t :: ts, fs, db =>
      match t.uvozi fs db with
      | .error e => .error e
      | .ok db2 => uvozi_podatke ts fs db2

/-- Translation of izprazni_tabele: call izprazni on each table in order,
stopping at the first error. -/
def izprazni_tabele : List Tabela → DB → Except SqlError DB
  | [], db => .ok db
  | t :: ts, db =>
      match t.izprazni db with
      | .error e => .error e
      | .ok db2 => izprazni_tabele ts db2

/-- Translation of pripravi_tabele: the fixed, dependency-ordered list of the
five tables. -/
def pripravi_tabele : List Tabela :=
  [stranka, oblacilo, zaloga, kosarica, narocilo]

/-- Translation of ustvari_bazo: drop all tables, create all tables, import
all data files, over the list of pripravi_tabele. -/
def ustvari_bazo (fs : FS) (db : DB) : Except SqlError DB :=
  match ustvari_tabele pripravi_tabele (izbrisi_tabele pripravi_tabele db) with
  | .error e => .error e
  | .ok db2 => uvozi_podatke pripravi_tabele fs db2

/-- Translation of ustvari_bazo_ce_ne_obstaja: the count of schema objects
is queried, but the conditional that would inspect it is commented out in
the source, so ustvari_bazo runs unconditionally. -/
def ustvari_bazo_ce_ne_obstaja (fs : FS) (db : DB) : Except SqlError DB :=
  let _cur := db.schemaCount
  ustvari_bazo fs db

/-- The insert call that importing one data record performs: the statement
text built by dodajanje over the keys of the present fields of the decoded
record, together with the present fields as named bindings. -/
def insertCallOf (t : Tabela) (stolpci : List String) (v : List String) :
    String × List (String × String) :=
  let prisotni := (rowCodec stolpci v).filterMap fun kv =>
    kv.2.map fun w => (kv.1, w)
  (t.dodajanje (prisotni.map Prod.fst), prisotni)

/-- Concrete database for evaluation: the stranka table created on the empty
database. -/
def dbS : DB :=
  match stranka.ustvari praznaBaza with
  | .ok d => d
  | .error _ => praznaBaza

/-- Concrete record for evaluation: all five required customer fields
present, one extra field absent. -/
def podC1 : List (String × Option String) :=
  [("first_name", some "Ana"), ("last_name", some "Kos"),
   ("email", some "ana@x.io"), ("gender", some "F"),
   ("ip_address", some "1.2.3.4"), ("extra", none)]

/-- Concrete database for evaluation: dbS after inserting podC1. -/
def dbS2 : DB :=
  match stranka.dodaj_vrstico dbS podC1 with
  | .ok (d, _) => d
  | .error _ => praznaBaza

/-- Concrete file system for evaluation: the customer data file with its
header record and one data record. -/
def fsC4 : FS :=
  [("podatki/stranka.csv",
    [["first_name", "last_name", "email", "gender", "ip_address"],
     ["Ana", "Kos", "ana@x.io", "F", "1.2.3.4"]])]

/-- Concrete database for evaluation: dbS after importing fsC4. -/
def dbC4 : DB :=
  match stranka.uvozi fsC4 dbS with
  | .ok d => d
  | .error _ => praznaBaza

/-! Helper lemmas about the association-list primitives. -/

theorem assocFind_removeA_self {α : Type} (k : String)
    (l : List (String × α)) : assocFind k (removeA k l) = none := by
  induction l with
  | nil => rfl
  | cons kv rest ih =>
      by_cases h : kv.1 = k
      · simp [removeA, h, ih]
      · simp [removeA, assocFind, h, ih]

theorem removeA_removeA {α : Type} (k : String) (l : List (String × α)) :
    removeA k (removeA k l) = removeA k l := by
  induction l with
  | nil => rfl
  | cons kv rest ih =>
      by_cases h : kv.1 = k
      · simp [removeA, h, ih]
      · simp [removeA, h, ih]

theorem assocFind_updateA_self {α : Type} (k : String) (f : α → α)
    (l : List (String × α)) :
    assocFind k (updateA k f l) = (assocFind k l).map f := by
  induction l with
  | nil => rfl
  | cons kv rest ih =>
      by_cases h : kv.1 = k
      · simp [updateA, assocFind, h]
      · simp [updateA, assocFind, h, ih]

theorem assocFind_updateA_ne {α : Type} (k k2 : String) (f : α → α)
    (l : List (String × α)) (h : k2 ≠ k) :
    assocFind k2 (updateA k f l) = assocFind k2 l := by
  induction l with
  | nil => rfl
  | cons kv rest ih =>
      by_cases hk : kv.1 = k
      · simp [updateA, assocFind, hk, Ne.symm h, ih]
      · by_cases hk2 : kv.1 = k2
        · simp [updateA, assocFind, hk, hk2, h]
        · simp [updateA, assocFind, hk, hk2, ih]

/-! Helper lemmas about filtering absent values. -/

theorem filterMap_isSome_eq (l : List (String × Option String)) :
    (l.filterMap fun kv => kv.2.map fun v => (kv.1, v)) =
      ((l.filter fun kv => kv.2.isSome).map fun kv => (kv.1, kv.2.getD "")) := by
  induction l with
  | nil => rfl
  | cons kv rest ih =>
      cases h : kv.2 with
      | none => simp [List.filterMap_cons, List.filter_cons, h, ih]
      | some v => simp [List.filterMap_cons, List.filter_cons, h, ih]

theorem filterMap_all_none (l : List (String × Option String))
    (h : ∀ kv ∈ l, kv.2 = none) :
    (l.filterMap fun kv => kv.2.map fun v => (kv.1, v)) = [] := by
  induction l with
  | nil => rfl
  | cons kv rest ih =>
      have h1 : kv.2 = none := h kv (List.mem_cons_self kv rest)
      have h2 : ∀ kv2 ∈ rest, kv2.2 = none := fun kv2 hm =>
        h kv2 (List.mem_cons_of_mem kv hm)
      simp [List.filterMap_cons, h1, ih h2]

/-! Helper lemmas about the engine operations. -/

theorem executeInsert_ok (db : DB) (poizvedba ime : String)
    (stolpci : List String) (vrednosti : List (String × String))
    (db2 : DB) (rid : Nat)
    (h : db.executeInsert poizvedba ime stolpci vrednosti = .ok (db2, rid)) :
    db2.tables =
      updateA ime (fun tb => { tb with
          rows := tb.rows ++ [vrednosti], nextId := tb.nextId + 1 }) db.tables ∧
    db2.log = db.log ++ [(poizvedba, vrednosti)] ∧
    (assocFind ime db.tables).map Table.nextId = some rid := by
  unfold DB.executeInsert at h
  split at h
  · exact absurd h (by simp)
  · split at h
    · exact absurd h (by simp)
    · rename_i tbl hfind
      split at h
      · injection h with h2
        injection h2 with ha hb
        subst hb
        refine ⟨?_, ?_, ?_⟩
        · rw [← ha]
        · rw [← ha]
        · simp [hfind]
      · exact absurd h (by simp)

theorem dodaj_vrstico_ok (t : Tabela) (db : DB)
    (podatki : List (String × Option String)) (db2 : DB) (rid : Nat)
    (h : t.dodaj_vrstico db podatki = .ok (db2, rid)) :
    db2.log = db.log ++
      [(t.dodajanje ((podatki.filterMap fun kv =>
          kv.2.map fun v => (kv.1, v)).map Prod.fst),
        podatki.filterMap fun kv => kv.2.map fun v => (kv.1, v))] ∧
    db2.rowcount t.ime = (db.rowcount t.ime).map (fun c => c + 1) ∧
    (assocFind t.ime db.tables).map Table.nextId = some rid := by
  unfold Tabela.dodaj_vrstico at h
  have h2 := executeInsert_ok _ _ _ _ _ _ _ h
  refine ⟨h2.2.1, ?_, h2.2.2⟩
  unfold DB.rowcount
  rw [h2.1, assocFind_updateA_self]
  cases assocFind t.ime db.tables with
  | none => rfl
  | some tbl => simp

/-! Helper lemmas about Python dictionaries and the row codec. -/

theorem pyUpsert_not_mem (k : String) (v : Option String)
    (acc : List (String × Option String)) (h : k ∉ acc.map Prod.fst) :
    pyUpsert acc k v = acc ++ [(k, v)] := by
  induction acc with
  | nil => rfl
  | cons kv rest ih =>
      have h1 : ¬ kv.1 = k := fun hh => h (by simp [hh])
      have h2 : k ∉ rest.map Prod.fst := fun hh => h (by simp [hh])
      simp [pyUpsert, h1, ih h2]

theorem pyUpsert_mem (p : String × Option String) (k : String)
    (v : Option String) (acc : List (String × Option String))
    (h : p ∈ pyUpsert acc k v) : p ∈ acc ∨ p = (k, v) := by
  induction acc with
  | nil =>
      simp [pyUpsert] at h
      exact Or.inr h
  | cons kv rest ih =>
      by_cases hk : kv.1 = k
      · simp [pyUpsert, hk] at h
        rcases h with h | h
        · exact Or.inr h
        · exact Or.inl (List.mem_cons_of_mem kv h)
      · simp only [pyUpsert, if_neg hk, List.mem_cons] at h
        rcases h with h | h
        · exact Or.inl (by simp [h])
        · rcases ih h with h2 | h2
          · exact Or.inl (List.mem_cons_of_mem kv h2)
          · exact Or.inr h2

theorem pythonDict_aux_nodup (l acc : List (String × Option String))
    (h : (acc.map Prod.fst ++ l.map Prod.fst).Nodup) :
    l.foldl (fun d kv => pyUpsert d kv.1 kv.2) acc = acc ++ l := by
  induction l generalizing acc with
  | nil => simp
  | cons kv rest ih =>
      have hmem : kv.1 ∉ acc.map Prod.fst := by
        intro hmem
        have hdisj := List.disjoint_of_nodup_append h
        exact hdisj hmem (by simp)
      have hstep : pyUpsert acc kv.1 kv.2 = acc ++ [(kv.1, kv.2)] :=
        pyUpsert_not_mem kv.1 kv.2 acc hmem
      have hnodup2 : ((acc ++ [(kv.1, kv.2)]).map Prod.fst ++
          rest.map Prod.fst).Nodup := by
        simp only [List.map_append, List.map_cons, List.map_nil] at h ⊢
        simpa [List.append_assoc] using h
      calc (kv :: rest).foldl (fun d kv2 => pyUpsert d kv2.1 kv2.2) acc
          = rest.foldl (fun d kv2 => pyUpsert d kv2.1 kv2.2)
              (acc ++ [(kv.1, kv.2)]) := by
            simp [List.foldl_cons, hstep]
        _ = (acc ++ [(kv.1, kv.2)]) ++ rest := ih _ hnodup2
        _ = acc ++ kv :: rest := by simp

theorem pythonDict_nodup (l : List (String × Option String))
    (h : (l.map Prod.fst).Nodup) : pythonDict l = l := by
  have h2 : (([] : List (String × Option String)).map Prod.fst ++
      l.map Prod.fst).Nodup := by simpa using h
  simpa using pythonDict_aux_nodup l [] h2

theorem pythonDict_aux_mem (p : String × Option String)
    (l acc : List (String × Option String))
    (h : p ∈ l.foldl (fun d kv => pyUpsert d kv.1 kv.2) acc) :
    p ∈ acc ∨ p ∈ l := by
  induction l generalizing acc with
  | nil => exact Or.inl (by simpa using h)
  | cons kv rest ih =>
      simp only [List.foldl_cons] at h
      rcases ih (pyUpsert acc kv.1 kv.2) h with h2 | h2
      · rcases pyUpsert_mem p kv.1 kv.2 acc h2 with h3 | h3
        · exact Or.inl h3
        · exact Or.inr (by simp [h3])
      · exact Or.inr (List.mem_cons_of_mem kv h2)

theorem pythonDict_mem (p : String × Option String)
    (l : List (String × Option String)) (h : p ∈ pythonDict l) : p ∈ l := by
  rcases pythonDict_aux_mem p l [] h with h2 | h2
  · simp at h2
  · exact h2

theorem zip_take_min {α β : Type} (l1 : List α) (l2 : List β) :
    l1.zip l2 = (l1.take (min l1.length l2.length)).zip
      (l2.take (min l1.length l2.length)) := by
  induction l1 generalizing l2 with
  | nil => simp
  | cons a rest ih =>
      cases l2 with
      | nil => simp
      | cons b rest2 =>
          simp only [List.length_cons, List.zip_cons_cons,
            Nat.succ_min_succ, List.take_succ_cons]
          exact congrArg _ (ih rest2)

/-! Helper lemma about the import loop. -/

theorem uvoziVrstice_ok (t : Tabela) (stolpci : List String) :
    ∀ (vrstice : List (List String)) (db db2 : DB),
    t.uvoziVrstice stolpci vrstice db = .ok db2 →
    db2.log = db.log ++ vrstice.map (insertCallOf t stolpci) ∧
    db2.rowcount t.ime =
      (db.rowcount t.ime).map (fun c => c + vrstice.length) := by
  intro vrstice
  induction vrstice with
  | nil =>
      intro db db2 h
      simp only [Tabela.uvoziVrstice] at h
      injection h with h
      subst h
      refine ⟨by simp, ?_⟩
      cases db.rowcount t.ime with
      | none => rfl
      | some c => simp
  | cons v vs ih =>
      intro db db2 h
      simp only [Tabela.uvoziVrstice] at h
      cases hstep : t.dodaj_vrstico db (rowCodec stolpci v) with
      | error e => rw [hstep] at h; exact absurd h (by simp)
      | ok p =>
          rw [hstep] at h
          obtain ⟨dbm, rid⟩ := p
          have hins := dodaj_vrstico_ok t db (rowCodec stolpci v) dbm rid hstep
          have hrest := ih dbm db2 h
          constructor
          · rw [hrest.1, hins.1]
            simp [insertCallOf, List.append_assoc]
          · rw [hrest.2, hins.2.1]
            cases db.rowcount t.ime with
            | none => rfl
            | some c =>
                show some (c + 1 + vs.length) = some (c + (vs.length + 1))
                exact congrArg some (by omega)

/-! Claim theorems. -/

/-- C1: for every field mapping passed to dodaj_vrstico, the operation first
removes every entry whose value is absent (the kept entries are exactly the
present ones, in order, with their values unwrapped), builds the insert
statement with the statement builder dodajanje over exactly the remaining
field set and executes it on the engine with the remaining entries as
bindings, and on success the executed statement recorded in the trace is
that very statement with those bindings, and the returned number is the
storage-assigned row identifier of the table. -/
theorem dodaj_vrstico_spec (t : Tabela) (db : DB)
    (podatki : List (String × Option String)) :
    (podatki.filterMap fun kv => kv.2.map fun v => (kv.1, v)) =
      ((podatki.filter fun kv => kv.2.isSome).map
        fun kv => (kv.1, kv.2.getD "")) ∧
    t.dodaj_vrstico db podatki =
      db.executeInsert
        (t.dodajanje ((podatki.filterMap fun kv =>
          kv.2.map fun v => (kv.1, v)).map Prod.fst))
        t.ime
        ((podatki.filterMap fun kv => kv.2.map fun v => (kv.1, v)).map Prod.fst)
        (podatki.filterMap fun kv => kv.2.map fun v => (kv.1, v)) ∧
    (∀ db2 rid, t.dodaj_vrstico db podatki = .ok (db2, rid) →
      (assocFind t.ime db.tables).map Table.nextId = some rid ∧
      db2.log = db.log ++
        [(t.dodajanje ((podatki.filterMap fun kv =>
            kv.2.map fun v => (kv.1, v)).map Prod.fst),
          podatki.filterMap fun kv => kv.2.map fun v => (kv.1, v))]) := by
  refine ⟨filterMap_isSome_eq podatki, rfl, ?_⟩
  intro db2 rid h
  have h2 := dodaj_vrstico_ok t db podatki db2 rid h
  exact ⟨h2.2.2, h2.1⟩

/-- Witness for C1: inserting a concrete customer record with one absent
field into the freshly created stranka table succeeds, returns the
storage-assigned identifier 1, and records exactly the statement built over
the five present fields with those bindings. -/
theorem dodaj_vrstico_spec_witness :
    stranka.dodaj_vrstico dbS podC1 = .ok (dbS2, 1) ∧
    (assocFind "stranka" dbS.tables).map Table.nextId = some 1 ∧
    dbS2.log = dbS.log ++
      [(stranka.dodajanje
          ["first_name", "last_name", "email", "gender", "ip_address"],
        [("first_name", "Ana"), ("last_name", "Kos"), ("email", "ana@x.io"),
         ("gender", "F"), ("ip_address", "1.2.3.4")])] := by
  have hok : stranka.dodaj_vrstico dbS podC1 = .ok (dbS2, 1) := by rfl
  have h := (dodaj_vrstico_spec stranka dbS podC1).2.2 dbS2 1 hok
  exact ⟨hok, h.1, h.2⟩

/-- C3: for every non-empty list of field names, the placeholder list of the
statement built by dodajanje has the same length as the column list, the
placeholder at each position is the named parameter of the column at the
same position, and the statement text is exactly the column list and the
placeholder list joined in the same order into the two clauses. -/
theorem dodajanje_alignment (t : Tabela) (stolpci : List String)
    (_h : stolpci ≠ []) :
    (stolpci.map PARAM_FMT_format).length = stolpci.length ∧
    (∀ (i : Nat) (h1 : i < stolpci.length)
        (h2 : i < (stolpci.map PARAM_FMT_format).length),
      (stolpci.map PARAM_FMT_format).get ⟨i, h2⟩ =
        ":" ++ stolpci.get ⟨i, h1⟩) ∧
    t.dodajanje stolpci =
      "\n            INSERT INTO " ++ t.ime ++ " (" ++
        String.intercalate ", " stolpci ++
        ")\n            VALUES (" ++
        String.intercalate ", " (stolpci.map PARAM_FMT_format) ++
        ");\n        " := by
  refine ⟨by simp, ?_, rfl⟩
  intro i h1 h2
  simp [List.get_eq_getElem, PARAM_FMT_format]

/-- Witness for C3: the statement built over two concrete columns, with its
column clause and placeholder clause aligned. -/
theorem dodajanje_alignment_witness :
    ((["a", "b"] : List String).map PARAM_FMT_format).length =
      (["a", "b"] : List String).length ∧
    stranka.dodajanje ["a", "b"] =
      "\n            INSERT INTO stranka (a, b)\n            VALUES (:a, :b);\n        " :=
  ⟨(dodajanje_alignment stranka ["a", "b"] (by decide)).1, by rfl⟩

/-- C8: the statement builder invoked with zero present fields does not
raise and does not pre-validate: it returns the statement text with an empty
column list and an empty placeholder list, and a dodaj_vrstico call whose
record has only absent values surfaces the problem only at execution time,
as the generic operational error of the storage layer for bad grammar. -/
theorem dodajanje_empty_fields_spec (t : Tabela) (db : DB)
    (podatki : List (String × Option String))
    (h : ∀ kv ∈ podatki, kv.2 = none) :
    t.dodajanje [] =
      "\n            INSERT INTO " ++ t.ime ++ " (" ++ "" ++
        ")\n            VALUES (" ++ "" ++ ");\n        " ∧
    t.dodaj_vrstico db podatki = .error (.operational "syntax error") := by
  have h2 := filterMap_all_none podatki h
  constructor
  · rfl
  · unfold Tabela.dodaj_vrstico
    simp only [h2]
    rfl

/-- Witness for C8: on a concrete record whose only value is absent, the
builder yields the malformed text with empty lists and the insert call
fails with the operational grammar error, even though the table exists. -/
theorem dodajanje_empty_fields_witness :
    stranka.dodajanje [] =
      "\n            INSERT INTO stranka ()\n            VALUES ();\n        " ∧
    stranka.dodaj_vrstico dbS [("first_name", none)] =
      .error (.operational "syntax error") := by
  have h := dodajanje_empty_fields_spec stranka dbS
    [("first_name", none)] (by decide)
  exact ⟨by rfl, h.2⟩

/-- C2, counterexample: with a duplicated header name and values of equal
length, the decoded mapping does not pair every raw value with its header:
the raw value x of the first position is absent from the result, because
the dict comprehension keeps only the last assignment to each key. This
refutes the claim for arbitrary header sequences. -/
theorem rowCodec_positional_counterexample :
    rowCodec ["a", "a"] ["x", ""] = [("a", none)] ∧
    ("a", some "x") ∉ rowCodec ["a", "a"] ["x", ""] := by decide

/-- C2, amended: for every header sequence with pairwise distinct names and
every raw-value sequence of equal length, the record-decoding step pairs
each header positionally with its raw value, mapping an empty raw value to
the absent value and every other raw value to itself unchanged, and the
result has one entry per header. -/
theorem rowCodec_decode_spec (stolpci vrstica : List String)
    (h1 : stolpci.Nodup) (h2 : stolpci.length = vrstica.length) :
    rowCodec stolpci vrstica =
      (stolpci.zip vrstica).map
        (fun kv => (kv.1, if kv.2 = "" then none else some kv.2)) ∧
    (rowCodec stolpci vrstica).length = stolpci.length := by
  have hkeys : ((((stolpci.zip vrstica).map
      (fun kv => (kv.1, if kv.2 = "" then none else some kv.2)))).map
        Prod.fst).Nodup := by
    rw [List.map_map]
    have hcomp : (Prod.fst ∘ fun kv : String × String =>
        (kv.1, if kv.2 = "" then none else some kv.2)) =
          (Prod.fst : String × String → String) := rfl
    rw [hcomp, List.map_fst_zip _ _ (le_of_eq h2)]
    exact h1
  have heq : rowCodec stolpci vrstica =
      (stolpci.zip vrstica).map
        (fun kv => (kv.1, if kv.2 = "" then none else some kv.2)) :=
    pythonDict_nodup _ hkeys
  refine ⟨heq, ?_⟩
  rw [heq, List.length_map, List.length_zip, h2, min_self]

/-- Witness for C2 as amended: a concrete record with distinct headers, one
empty value and one non-empty value. -/
theorem rowCodec_decode_spec_witness :
    rowCodec ["first_name", "email"] ["Ana", ""] =
      [("first_name", some "Ana"), ("email", none)] := by
  have h := rowCodec_decode_spec ["first_name", "email"] ["Ana", ""]
    (by decide) (by decide)
  rw [h.1]
  rfl

/-- C10: when the header and a data record differ in length, the decoding
step silently truncates to the shorter of the two sequences, exactly as the
zip does: the result is the same as decoding the two sequences cut to the
common length, every key of the result is one of the headers before the
cut, and every present value of the result is one of the raw values before
the cut; no error is raised, the codec being a total function. -/
theorem rowCodec_zip_truncation (stolpci vrstica : List String) :
    rowCodec stolpci vrstica =
      rowCodec (stolpci.take (min stolpci.length vrstica.length))
        (vrstica.take (min stolpci.length vrstica.length)) ∧
    ∀ p ∈ rowCodec stolpci vrstica,
      p.1 ∈ stolpci.take (min stolpci.length vrstica.length) ∧
      ∀ v, p.2 = some v →
        v ∈ vrstica.take (min stolpci.length vrstica.length) := by
  constructor
  · unfold rowCodec
    rw [zip_take_min stolpci vrstica]
  · intro p hp
    have hmem := pythonDict_mem p _ hp
    rw [zip_take_min stolpci vrstica] at hmem
    obtain ⟨q, hq, hpq⟩ := List.mem_map.mp hmem
    obtain ⟨q1, q2⟩ := q
    have hzip := List.of_mem_zip hq
    subst hpq
    constructor
    · exact hzip.1
    · intro v hv
      by_cases hq2 : q2 = ""
      · simp [hq2] at hv
      · simp only [hq2, if_neg hq2] at hv
        have hv2 : q2 = v := by
          by_contra hne
          simp [hne] at hv
        exact hv2 ▸ hzip.2

/-- Witness for C10: a three-name header with a two-field record decodes as
if the header were cut to two names, the key a among the used headers and
the value 1 among the used raw values. -/
theorem rowCodec_zip_truncation_witness :
    rowCodec ["a", "b", "c"] ["1", ""] = rowCodec ["a", "b"] ["1", ""] ∧
    ("a" : String) ∈ (["a", "b", "c"] : List String).take 2 ∧
    ("1" : String) ∈ (["1", ""] : List String).take 2 := by
  have h := rowCodec_zip_truncation ["a", "b", "c"] ["1", ""]
  have h2 := h.2 ("a", some "1") (by decide)
  exact ⟨h.1, h2.1, h2.2 "1" rfl⟩

/-- C6, counterexample: on the empty database, where the clothing table does
not exist, creating the inventory table zaloga succeeds rather than failing:
SQLite does not look up the target of a REFERENCES clause when the table is
created, and the program never enables foreign-key enforcement. -/
theorem zaloga_before_oblacilo_counterexample :
    assocFind "oblacilo" praznaBaza.tables = none ∧
    zaloga.ustvari praznaBaza =
      .ok ⟨[("zaloga", ⟨zalogaStolpci, [], 1⟩)], []⟩ ∧
    (∀ e : SqlError, zaloga.ustvari praznaBaza ≠ .error e) := by
  refine ⟨rfl, rfl, ?_⟩
  intro e h
  rw [show zaloga.ustvari praznaBaza =
    .ok ⟨[("zaloga", ⟨zalogaStolpci, [], 1⟩)], []⟩ from rfl] at h
  exact Except.noConfusion h

/-- C6, amended: creating the inventory table before the clothing table
exists succeeds without error, because the target of a REFERENCES clause is
not checked at creation time and foreign-key enforcement is never enabled;
the creation fails only when a table named zaloga already exists, so the
dependency ordering of the orchestrator is not load-bearing for creation. -/
theorem zaloga_ustvari_no_target_check (db : DB)
    (h : assocFind "zaloga" db.tables = none) :
    ∃ db2, zaloga.ustvari db = .ok db2 ∧
      assocFind "oblacilo" db2.tables = assocFind "oblacilo" db.tables := by
  refine ⟨⟨("zaloga", ⟨zalogaStolpci, [], 1⟩) :: db.tables, db.log⟩, ?_, ?_⟩
  · unfold Tabela.ustvari DB.createTable
    have h2 : assocFind zaloga.ime db.tables = none := h
    simp [h2]
    exact ⟨rfl, rfl⟩
  · simp [assocFind]

/-- Witness for C6 as amended: the empty database. -/
theorem zaloga_ustvari_no_target_check_witness :
    assocFind "zaloga" praznaBaza.tables = none ∧
    ∃ db2, zaloga.ustvari praznaBaza = .ok db2 ∧
      assocFind "oblacilo" db2.tables =
        assocFind "oblacilo" praznaBaza.tables :=
  ⟨rfl, zaloga_ustvari_no_target_check praznaBaza rfl⟩

/-- C7: for every table and every starting database, the sequence drop,
create, drop, create succeeds, each drop raising no error by the semantics
of DROP TABLE IF EXISTS, and it leaves exactly the same database as a
single drop followed by a single create: the table exists with its declared
columns, zero rows and a fresh rowid counter. -/
theorem drop_create_twice (t : Tabela) (db : DB) :
    ∃ db1 db2,
      t.ustvari (t.izbrisi db) = .ok db1 ∧
      t.ustvari (t.izbrisi db1) = .ok db2 ∧
      db2 = db1 ∧
      assocFind t.ime db1.tables = some ⟨t.ddl, [], 1⟩ ∧
      db1.rowcount t.ime = some 0 := by
  have hfind : assocFind t.ime (removeA t.ime db.tables) = none :=
    assocFind_removeA_self t.ime db.tables
  refine ⟨⟨(t.ime, ⟨t.ddl, [], 1⟩) :: removeA t.ime db.tables, db.log⟩,
          ⟨(t.ime, ⟨t.ddl, [], 1⟩) :: removeA t.ime db.tables, db.log⟩,
          ?_, ?_, rfl, ?_, ?_⟩
  · unfold Tabela.ustvari Tabela.izbrisi DB.createTable DB.dropTableIfExists
    simp [hfind]
  · unfold Tabela.ustvari Tabela.izbrisi DB.createTable DB.dropTableIfExists
    simp only [removeA, if_pos rfl, removeA_removeA, hfind]
    simp [hfind]
  · simp [assocFind]
  · simp [DB.rowcount, assocFind]

/-- C9: deleting all rows of a table that exists succeeds, also when the
table is already empty, and changes nothing but the rows of that table: the
table keeps its declared columns and its rowid counter with zero rows, and
every other table name resolves exactly as before. -/
theorem izprazni_spec (t : Tabela) (db : DB) (tbl : Table)
    (h : assocFind t.ime db.tables = some tbl) :
    ∃ db2, t.izprazni db = .ok db2 ∧
      assocFind t.ime db2.tables = some { tbl with rows := [] } ∧
      (∀ ime2, ime2 ≠ t.ime →
        assocFind ime2 db2.tables = assocFind ime2 db.tables) ∧
      db2.log = db.log := by
  refine ⟨⟨updateA t.ime (fun tb => { tb with rows := [] }) db.tables,
    db.log⟩, ?_, ?_, ?_, rfl⟩
  · unfold Tabela.izprazni DB.deleteAll
    simp [h]
  · show assocFind t.ime
      (updateA t.ime (fun tb => { tb with rows := [] }) db.tables) = _
    rw [assocFind_updateA_self, h]
    rfl
  · intro ime2 hne
    exact assocFind_updateA_ne t.ime ime2 _ db.tables hne

/-- Witness for C9: clearing the freshly created, already empty stranka
table succeeds and leaves its declaration and every other name untouched. -/
theorem izprazni_spec_witness :
    ∃ db2, stranka.izprazni dbS = .ok db2 ∧
      assocFind "stranka" db2.tables = some ⟨strankaStolpci, [], 1⟩ ∧
      (∀ ime2, ime2 ≠ "stranka" →
        assocFind ime2 db2.tables = assocFind ime2 dbS.tables) ∧
      db2.log = dbS.log :=
  izprazni_spec stranka dbS ⟨strankaStolpci, [], 1⟩ rfl

/-- C4: importing is a no-op when no data file is configured; and when a
data file is configured and holds a header record followed by data records,
a successful import performs exactly one insert call per data record, in
source order, with the statement and bindings of each call determined by
its record, so the row count of the table grows by exactly the number of
data records. -/
theorem uvozi_spec (t : Tabela) (fs : FS) (db : DB) :
    (t.podatki = none → t.uvozi fs db = .ok db) ∧
    (∀ pot stolpci vrstice db2,
      t.podatki = some pot →
      assocFind pot fs = some (stolpci :: vrstice) →
      t.uvozi fs db = .ok db2 →
      db2.log = db.log ++ vrstice.map (insertCallOf t stolpci) ∧
      db2.rowcount t.ime =
        (db.rowcount t.ime).map (fun c => c + vrstice.length)) := by
  constructor
  · intro h
    unfold Tabela.uvozi
    rw [h]
  · intro pot stolpci vrstice db2 hp hf h
    unfold Tabela.uvozi at h
    simp only [hp, hf] at h
    exact uvoziVrstice_ok t stolpci vrstice db db2 h

/-- Witness for C4: importing the concrete customer file with one data
record into the freshly created stranka table succeeds, records exactly one
insert call, and raises the row count from zero to one. -/
theorem uvozi_spec_witness :
    stranka.uvozi fsC4 dbS = .ok dbC4 ∧
    dbC4.log = dbS.log ++
      [["Ana", "Kos", "ana@x.io", "F", "1.2.3.4"]].map
        (insertCallOf stranka
          ["first_name", "last_name", "email", "gender", "ip_address"]) ∧
    dbC4.rowcount "stranka" = some 1 := by
  have hok : stranka.uvozi fsC4 dbS = .ok dbC4 := by rfl
  have h := (uvozi_spec stranka fsC4 dbS).2 "podatki/stranka.csv"
    ["first_name", "last_name", "email", "gender", "ip_address"]
    [["Ana", "Kos", "ana@x.io", "F", "1.2.3.4"]] dbC4 rfl rfl hok
  refine ⟨hok, h.1, ?_⟩
  rw [show dbC4.rowcount "stranka" =
    (dbS.rowcount "stranka").map (fun c => c + 1) from h.2]
  rfl

/-- C5: the bootstrap check queries the count of schema objects but never
branches on it, the conditional being commented out in the source: for every
starting database, populated or not, it behaves exactly as ustvari_bazo,
which drops all five tables, creates all five tables and imports all five
data files, over the fixed dependency-ordered list of pripravi_tabele. -/
theorem ustvari_bazo_ce_ne_obstaja_unconditional (fs : FS) (db : DB) :
    pripravi_tabele = [stranka, oblacilo, zaloga, kosarica, narocilo] ∧
    ustvari_bazo_ce_ne_obstaja fs db = ustvari_bazo fs db ∧
    ustvari_bazo_ce_ne_obstaja fs db =
      (match ustvari_tabele pripravi_tabele
          (izbrisi_tabele pripravi_tabele db) with
       | .error e => .error e
       | .ok db2 => uvozi_podatke pripravi_tabele fs db2) :=
  ⟨rfl, rfl, rfl⟩
